import Mathlib

/-!
Verification of the binance_bot signal-to-order engine and trade ledger
(src/app.py), shallowly embedded in Lean 4.

Python floats are modelled as exact rationals; the Python builtin
round(x, n) is modelled by its documented semantics: round to the nearest
multiple of 10 ^ (-n), ties to the even multiple.  The inputs used in
concrete counterexamples are chosen so that every intermediate value of
the original float computation is exactly representable in binary, hence
the rational model and the float execution agree there.
-/

namespace BinanceBot

/-- Round a rational to the nearest integer, ties to even: the documented
behaviour of the Python builtin round. -/
def rhe (x : ℚ) : ℤ :=
  if Int.fract x < 1/2 then ⌊x⌋
  else if 1/2 < Int.fract x then ⌊x⌋ + 1
  else if ⌊x⌋ % 2 = 0 then ⌊x⌋ else ⌊x⌋ + 1

/-- Python round(x, n) for n ≥ 0: value rounded to n decimal places,
ties to even. -/
def pyRound (x : ℚ) (n : ℕ) : ℚ :=
  (rhe (x * 10 ^ n) : ℚ) / 10 ^ n

/-- Rounding half-up (ties away from zero, for nonnegative arguments) to
n decimal places.  This is the rounding mode the spec asserts; it is only
used to compare against the behaviour of the code. -/
def roundHalfUp (x : ℚ) (n : ℕ) : ℚ :=
  (⌊x * 10 ^ n + 1/2⌋ : ℚ) / 10 ^ n

/-- ASCII upper-casing of one character, as str.upper acts on the
alphabet this program uses. -/
def upChar (c : Char) : Char :=
  if 97 ≤ c.toNat ∧ c.toNat ≤ 122 then Char.ofNat (c.toNat - 32) else c

/-- str.upper on the ASCII fragment. -/
def pyToUpper (s : String) : String :=
  String.mk (s.data.map upChar)

/-- The Python expression a or b on optional strings: a missing or empty
(falsy) left operand falls through to the right operand. -/
def pyOr (a b : Option String) : Option String :=
  match a with
  | some s => if s = "" then b else some s
  | none => b

/-- One numeric field of the parsed webhook payload, before float():
missing (float(default 0) = 0), a parsed number, or unparsable text
(float() raises, the handler answers 400). -/
inductive NumField where
  | missing
  | num (q : ℚ)
  | bad
deriving DecidableEq, Repr

/-- float(data.get(k, 0)): 0 when the field is missing, none when
float() raises. -/
def parseNum : NumField → Option ℚ
  | .missing => some 0
  | .num q => some q
  | .bad => none

/-- One persisted trade record, with exactly the fields that
save_trade_history writes. -/
structure TradeRecord where
  timestamp : String
  side : String
  qty : ℚ
  entry : ℚ
  stop : ℚ
  order_id : Option ℤ
  symbol : String
  mode : String
  message : Option String
deriving DecidableEq, Repr

/-- The record dict built by save_trade_history: symbol or SYMBOL in
Python falls back to the configured SYMBOL also for an empty (falsy)
string, and the message key is attached only when the message is truthy
(present and nonempty). -/
def mkTradeRecord (now side : String) (qty entry stop : ℚ) (order_id : Option ℤ)
    (symbol : Option String) (symbolCfg modeCfg : String)
    (message : Option String) : TradeRecord :=
  { timestamp := now
    side := side
    qty := qty
    entry := entry
    stop := stop
    order_id := order_id
    symbol :=
      match symbol with
      | some s => if s = "" then symbolCfg else s
      | none => symbolCfg
    mode := modeCfg
    message :=
      match message with
      | some m => if m = "" then none else some m
      | none => none }

/-- The pure core of save_trade_history: append the new record to the
history read from disk, then keep only the most recent 1000 records. -/
def save_trade_history (history : List TradeRecord) (r : TradeRecord) :
    List TradeRecord :=
  let h := history ++ [r]
  if 1000 < h.length then h.drop (h.length - 1000) else h

/-- save_trade_history including the read step: when the history file is
missing or unreadable (json.load raises) the handler logs a warning and
continues with an empty list. -/
def save_trade_history_disk (readResult : Option (List TradeRecord))
    (r : TradeRecord) : List TradeRecord :=
  save_trade_history (readResult.getD []) r

/-- calc_qty from src/app.py: validate entry and stop, fetch the balance
(an Except models get_balance raising; every exception is caught and
turned into 0), validate the balance, then round the risk amount divided
by the stop distance to QTY_PRECISION decimal places with the Python
round builtin.  The function is total: no exception propagates. -/
def calc_qty (riskPct : ℚ) (prec : ℕ) (balance : Except Unit ℚ)
    (entry stop : ℚ) : ℚ :=
  if entry ≤ 0 ∨ stop ≤ 0 then 0
  else
    let dist := |entry - stop|
    if dist ≤ 0 then 0
    else
      match balance with
      | .error _ => 0
      | .ok bal =>
          if bal ≤ 0 then 0
          else pyRound (bal * riskPct / dist) prec

/-- The trading symbol configured at the top of src/app.py. -/
def SYMBOL : String := "BTCUSDT"

/-- Default RISK_PCT from src/app.py (float 0.01). -/
def RISK_PCT : ℚ := 1/100

/-- Default QTY_PRECISION from src/app.py. -/
def QTY_PRECISION : ℕ := 3

/-- One call to the exchange client, as the handlers issue them. -/
inductive ExCall where
  | balanceQuery
  | positionQuery
  | newOrder (side : String) (qty : ℚ) (reduceOnly : Bool)
  | marketSell (qty : ℚ)
  | marketBuy (quoteOrderQty : ℚ)
deriving DecidableEq, Repr

/-- The exchange orders issued by one run of the private helper used for
closing a position: guard qty ≤ 0 (return, no call), then in futures mode
a reduce-only MARKET order whose side is BUY when qty < 0 and SELL
otherwise, with quantity abs(qty); in spot mode a market sell. -/
def closeCalls (isFutures : Bool) (qty : ℚ) : List ExCall :=
  if qty ≤ 0 then []
  else if isFutures then
    [ExCall.newOrder (if qty < 0 then "BUY" else "SELL") |qty| true]
  else
    [ExCall.marketSell qty]

/-- close_if_reverse from src/app.py: in futures mode an opposing
position (LONG signal with a short position, SHORT signal with a long
position) is closed with abs(pos_qty); in spot mode only a SHORT signal
with a held position triggers a sell. -/
def close_if_reverse_calls (isFutures : Bool) (side : String) (posQty : ℚ) :
    List ExCall :=
  if isFutures then
    if side = "LONG" ∧ posQty < 0 then closeCalls isFutures |posQty|
    else if side = "SHORT" ∧ 0 < posQty then closeCalls isFutures |posQty|
    else []
  else
    if side = "SHORT" ∧ 0 < posQty then closeCalls isFutures posQty
    else []

/-- Whether an Except carries an error, modelling a raised exception. -/
def isError {ε α : Type} : Except ε α → Bool
  | .error _ => true
  | .ok _ => false

/-- Results of the exchange-client calls a single webhook request can
make: the fetched balance, the signed position quantity, the close order
and the opening order.  An error value models the call raising. -/
structure Env where
  balance : Except Unit ℚ
  posQty : Except Unit ℚ
  closeOrder : Except Unit ℤ
  openOrder : Except Unit ℤ

/-- Outcome of one /webhook request: HTTP status, an abbreviated tag for
the response body, the exchange calls attempted (in order, including a
call that raised), and the trade records appended to the ledger. -/
structure WebhookRes where
  status : ℕ
  tag : String
  calls : List ExCall
  ledger : List TradeRecord
deriving DecidableEq, Repr

/-- The /webhook handler from src/app.py, past payload parsing: secret
check (body secret, falling back to the query string when the body one
is missing or empty), side validation, entry/stop parsing and
validation, sizing via calc_qty (which performs the balance query; its
own entry/stop/distance guards are implied by the checks just made),
position query, close_if_reverse, same-side skip check, then the opening
market order and the ledger append. -/
def webhook (isFutures : Bool) (secretCfg symbolCfg modeCfg : String)
    (riskPct : ℚ) (prec : ℕ) (env : Env)
    (bodySecret querySecret : Option String) (sideRaw : Option String)
    (entryF stopF : NumField) (now : String) : WebhookRes :=
  if pyOr bodySecret querySecret ≠ some secretCfg then
    ⟨403, "unauthorized", [], []⟩
  else
    let side := pyToUpper (sideRaw.getD "")
    if ¬ (side = "LONG" ∨ side = "SHORT") then
      ⟨400, "invalid side", [], []⟩
    else
      match parseNum entryF, parseNum stopF with
      | some entry, some stop =>
        if entry ≤ 0 ∨ stop ≤ 0 then
          ⟨400, "entry and stop must be positive", [], []⟩
        else if |entry - stop| ≤ 0 then
          ⟨400, "entry and stop must be different", [], []⟩
        else
          let qty := calc_qty riskPct prec env.balance entry stop
          if qty ≤ 0 then
            ⟨400, "qty too small", [.balanceQuery], []⟩
          else
            match env.posQty with
            | .error _ =>
                ⟨500, "failed to get position", [.balanceQuery, .positionQuery], []⟩
            | .ok posQty =>
                let closeAttempt := close_if_reverse_calls isFutures side posQty
                let calls := [ExCall.balanceQuery, ExCall.positionQuery] ++ closeAttempt
                if closeAttempt ≠ [] ∧ isError env.closeOrder then
                  ⟨500, "failed to close reverse position", calls, []⟩
                else if isFutures ∧ side = "LONG" ∧ 0 < posQty then
                  ⟨200, "skip", calls, []⟩
                else if isFutures ∧ side = "SHORT" ∧ posQty < 0 then
                  ⟨200, "skip", calls, []⟩
                else if ¬ isFutures ∧ side = "SHORT" then
                  ⟨400, "SHORT orders not supported", calls, []⟩
                else if isFutures then
                  let orderSide := if side = "LONG" then "BUY" else "SELL"
                  let calls2 := calls ++ [ExCall.newOrder orderSide qty false]
                  match env.openOrder with
                  | .error _ => ⟨500, "order failed", calls2, []⟩
                  | .ok oid =>
                      ⟨200, "ok", calls2,
                        [mkTradeRecord now side qty entry stop (some oid)
                          none symbolCfg modeCfg none]⟩
                else if side = "LONG" then
                  let calls2 := calls ++ [ExCall.marketBuy (pyRound (qty * entry) 2)]
                  match env.openOrder with
                  | .error _ => ⟨500, "order failed", calls2, []⟩
                  | .ok oid =>
                      ⟨200, "ok", calls2,
                        [mkTradeRecord now side qty entry stop (some oid)
                          none symbolCfg modeCfg none]⟩
                else
                  ⟨500, "order failed", calls, []⟩
      | _, _ => ⟨400, "invalid entry or stop value", [], []⟩

/-- The Feishu message text built by webhook_a_stock; the numeric
rendering is abbreviated to toString, no claim inspects this text. -/
def stockMsg (symbol side : String) (qty entry stop : ℚ)
    (tp1 tp2 score : Option ℚ) : String :=
  let optPart := fun (label : String) (v : Option ℚ) =>
    match v with
    | some x => if x = 0 then [] else [label ++ toString x]
    | none => []
  String.intercalate "\n"
    (["A-stock signal", "symbol: " ++ symbol, "side: " ++ side,
      "qty: " ++ toString qty, "entry: " ++ toString entry,
      "stop: " ++ toString stop] ++
      optPart "tp1: " tp1 ++ optPart "tp2: " tp2 ++ optPart "score: " score)

/-- Outcome of one /webhook_a_stock request: HTTP status, abbreviated
body tag, records appended to the ledger.  This handler makes no
exchange call. -/
structure StockRes where
  status : ℕ
  tag : String
  ledger : List TradeRecord
deriving DecidableEq, Repr

/-- The /webhook_a_stock handler from src/app.py, past payload parsing:
secret check, then the action gate - only ENTRY (the default) is
processed, every other action is answered with status ignored and HTTP
200 - then side, numeric and positivity validation, notification and
ledger append. -/
def webhook_a_stock (secretCfg symbolCfg modeCfg : String)
    (bodySecret querySecret : Option String)
    (actionRaw sideRaw : Option String) (symbol : String)
    (qtyF entryF stopF : NumField) (tp1 tp2 score : Option ℚ)
    (now : String) : StockRes :=
  if pyOr bodySecret querySecret ≠ some secretCfg then
    ⟨403, "unauthorized", []⟩
  else
    let action := pyToUpper (actionRaw.getD "ENTRY")
    if action ≠ "ENTRY" then
      ⟨200, "ignored", []⟩
    else
      let side := pyToUpper (sideRaw.getD "")
      if side ≠ "LONG" then
        ⟨400, "only LONG orders are supported", []⟩
      else
        match parseNum qtyF, parseNum entryF, parseNum stopF with
        | some qty, some entry, some stop =>
            if entry ≤ 0 ∨ stop ≤ 0 ∨ qty ≤ 0 then
              ⟨400, "qty, entry and stop must be positive", []⟩
            else
              let msg := stockMsg symbol side qty entry stop tp1 tp2 score
              ⟨200, "ok",
                [mkTradeRecord now side qty entry stop none (some symbol)
                  symbolCfg modeCfg (some msg)]⟩
        | _, _, _ => ⟨400, "invalid qty, entry or stop value", []⟩

/-- A concrete trade record used to instantiate universally quantified
statements. -/
def sampleRecord : TradeRecord :=
  ⟨"2026-01-01T00:00:00", "LONG", 2, 100, 95, none, "BTCUSDT", "testnet", none⟩

/-! ## Helper lemmas -/

theorem rhe_floor_le (x : ℚ) : ⌊x⌋ ≤ rhe x := by
  unfold rhe
  split_ifs <;> omega

theorem rhe_le_floor_add_one (x : ℚ) : rhe x ≤ ⌊x⌋ + 1 := by
  unfold rhe
  split_ifs <;> omega

theorem rhe_mono {x y : ℚ} (h : x ≤ y) : rhe x ≤ rhe y := by
  have hf : ⌊x⌋ ≤ ⌊y⌋ := Int.floor_mono h
  rcases lt_or_eq_of_le hf with hlt | heq
  · have h1 := rhe_le_floor_add_one x
    have h2 := rhe_floor_le y
    omega
  · have hfr : Int.fract x ≤ Int.fract y := by
      simp only [Int.fract]
      rw [heq]
      exact sub_le_sub_right h _
    unfold rhe
    rw [heq]
    split_ifs <;> first | omega | linarith

theorem pyRound_mono {x y : ℚ} (n : ℕ) (h : x ≤ y) : pyRound x n ≤ pyRound y n := by
  unfold pyRound
  have h10 : (0:ℚ) < 10 ^ n := by positivity
  rw [div_le_div_iff_of_pos_right h10]
  exact_mod_cast rhe_mono (mul_le_mul_of_nonneg_right h (le_of_lt h10))

theorem calc_qty_pos_path (rp : ℚ) (p : ℕ) (B E S : ℚ) (hB : 0 < B) (hE : 0 < E)
    (hS : 0 < S) (hne : E ≠ S) :
    calc_qty rp p (.ok B) E S = pyRound (B * rp / |E - S|) p := by
  have hdist : 0 < |E - S| := abs_pos.mpr (sub_ne_zero.mpr hne)
  have h1 : ¬(E ≤ 0 ∨ S ≤ 0) := by push_neg; exact ⟨hE, hS⟩
  have h2 : ¬(|E - S| ≤ 0) := not_le.mpr hdist
  have h3 : ¬(B ≤ 0) := not_le.mpr hB
  simp only [calc_qty]
  rw [if_neg h1, if_neg h2, if_neg h3]

/-! ## Claim C1 -/

/-- C1, counterexample: the claim asserts half-up rounding (ties away
from zero).  At balance 100, entry 116, stop 100 (all values exactly
representable in binary floating point, risk amount 1, distance 16) the
unrounded quantity is 1/16 = 0.0625, an exact tie at 3 decimal places;
the code returns 0.062 = 31/500 (ties to even, the behaviour of the
Python round builtin), while half-up rounding would give 0.063. -/
theorem calc_qty_not_half_up :
    calc_qty RISK_PCT QTY_PRECISION (.ok 100) 116 100 = 31/500 ∧
    roundHalfUp (100 * RISK_PCT / |(116:ℚ) - 100|) QTY_PRECISION = 63/1000 ∧
    (31/500 : ℚ) ≠ 63/1000 := by
  refine ⟨?_, ?_, by norm_num⟩
  · rw [calc_qty_pos_path _ _ _ _ _ (by norm_num) (by norm_num) (by norm_num)
      (by norm_num)]
    have h : 100 * RISK_PCT / |(116:ℚ) - 100| = 1/16 := by
      norm_num [RISK_PCT]
    rw [h]
    unfold pyRound
    have h1 : ((1:ℚ)/16) * 10 ^ QTY_PRECISION = 125/2 := by
      norm_num [QTY_PRECISION]
    rw [h1]
    unfold rhe
    norm_num [Int.fract, QTY_PRECISION]
  · unfold roundHalfUp
    norm_num [RISK_PCT, QTY_PRECISION]

/-- C1, amended: for every balance B > 0, entry E > 0, stop S > 0 with
E different from S, calc_qty returns B * RISK_PCT / abs (E - S) rounded
to QTY_PRECISION decimal places, where the rounding is that of the
Python round builtin: to the nearest multiple, ties to the even
multiple (banker rounding), not half-up. -/
theorem calc_qty_rounds_half_to_even (rp : ℚ) (p : ℕ) (B E S : ℚ)
    (hB : 0 < B) (hE : 0 < E) (hS : 0 < S) (hne : E ≠ S) :
    calc_qty rp p (.ok B) E S = pyRound (B * rp / |E - S|) p :=
  calc_qty_pos_path rp p B E S hB hE hS hne

/-- C1, witness for the amended claim at balance 1000, entry 100,
stop 95 under the default configuration. -/
theorem calc_qty_rounds_half_to_even_witness :
    calc_qty RISK_PCT QTY_PRECISION (.ok 1000) 100 95 =
      pyRound (1000 * RISK_PCT / |(100:ℚ) - 95|) QTY_PRECISION :=
  calc_qty_rounds_half_to_even RISK_PCT QTY_PRECISION 1000 100 95
    (by norm_num) (by norm_num) (by norm_num) (by norm_num)

/-! ## Claim C7 -/

/-- C7, confirmed: calc_qty returns exactly 0 whenever the fetched
balance is nonpositive, the entry is nonpositive, the stop is
nonpositive, or entry equals stop.  The embedded function is total (the
source catches every exception and returns 0), so no exception
propagates. -/
theorem calc_qty_fails_closed (rp : ℚ) (p : ℕ) (B E S : ℚ)
    (h : B ≤ 0 ∨ E ≤ 0 ∨ S ≤ 0 ∨ E = S) :
    calc_qty rp p (.ok B) E S = 0 := by
  simp only [calc_qty]
  split_ifs with h1 h2 h3
  · rfl
  · rfl
  · rfl
  · exfalso
    rcases h with hB | hE | hS | hES
    · exact h3 hB
    · exact h1 (Or.inl hE)
    · exact h1 (Or.inr hS)
    · exact h2 (by rw [hES, sub_self, abs_zero])

/-- C7, witness: zero balance yields quantity 0. -/
theorem calc_qty_fails_closed_witness :
    calc_qty RISK_PCT QTY_PRECISION (.ok 0) 100 95 = 0 :=
  calc_qty_fails_closed RISK_PCT QTY_PRECISION 0 100 95 (Or.inl (by norm_num))

/-! ## Claim C8 -/

/-- C8, confirmed: for a fixed positive risk fraction and fixed
precision, the quantity computed by calc_qty is monotonically
nondecreasing in the balance and monotonically nonincreasing in the
stop distance abs (entry - stop), over positive balances and prices
with entry different from stop. -/
theorem calc_qty_monotone (rp : ℚ) (p : ℕ) (hrp : 0 < rp) :
    (∀ B₁ B₂ E S : ℚ, 0 < B₁ → B₁ ≤ B₂ → 0 < E → 0 < S → E ≠ S →
      calc_qty rp p (.ok B₁) E S ≤ calc_qty rp p (.ok B₂) E S) ∧
    (∀ B E₁ S₁ E₂ S₂ : ℚ, 0 < B → 0 < E₁ → 0 < S₁ → E₁ ≠ S₁ →
      0 < E₂ → 0 < S₂ → E₂ ≠ S₂ → |E₁ - S₁| ≤ |E₂ - S₂| →
      calc_qty rp p (.ok B) E₂ S₂ ≤ calc_qty rp p (.ok B) E₁ S₁) := by
  constructor
  · intro B₁ B₂ E S hB1 hB12 hE hS hne
    rw [calc_qty_pos_path rp p B₁ E S hB1 hE hS hne,
        calc_qty_pos_path rp p B₂ E S (lt_of_lt_of_le hB1 hB12) hE hS hne]
    apply pyRound_mono
    have hdist : 0 < |E - S| := abs_pos.mpr (sub_ne_zero.mpr hne)
    gcongr
  · intro B E₁ S₁ E₂ S₂ hB hE1 hS1 hne1 hE2 hS2 hne2 hd
    rw [calc_qty_pos_path rp p B E₁ S₁ hB hE1 hS1 hne1,
        calc_qty_pos_path rp p B E₂ S₂ hB hE2 hS2 hne2]
    apply pyRound_mono
    have hd1 : 0 < |E₁ - S₁| := abs_pos.mpr (sub_ne_zero.mpr hne1)
    have hnum : 0 ≤ B * rp := le_of_lt (mul_pos hB hrp)
    gcongr

/-- C8, witness: doubling the balance does not decrease the quantity,
and widening the stop distance does not increase it, at concrete
inputs. -/
theorem calc_qty_monotone_witness :
    calc_qty RISK_PCT QTY_PRECISION (.ok 1000) 100 95 ≤
      calc_qty RISK_PCT QTY_PRECISION (.ok 2000) 100 95 ∧
    calc_qty RISK_PCT QTY_PRECISION (.ok 1000) 100 90 ≤
      calc_qty RISK_PCT QTY_PRECISION (.ok 1000) 100 95 :=
  ⟨(calc_qty_monotone RISK_PCT QTY_PRECISION (by norm_num [RISK_PCT])).1
      1000 2000 100 95 (by norm_num) (by norm_num) (by norm_num) (by norm_num)
      (by norm_num),
   (calc_qty_monotone RISK_PCT QTY_PRECISION (by norm_num [RISK_PCT])).2
      1000 100 95 100 90 (by norm_num) (by norm_num) (by norm_num) (by norm_num)
      (by norm_num) (by norm_num) (by norm_num) (by norm_num)⟩

/-! ## Claim C10 -/

/-- C10, confirmed: when reading the existing trade-history file fails
(missing file or unreadable JSON, modelled as a none read result),
save_trade_history proceeds with an empty history and the persisted
file afterwards contains exactly the newly appended record; the
function is total, so the caller receives no error, and every
previously persisted record is dropped. -/
theorem save_trade_history_read_failure_drops_history (r : TradeRecord) :
    save_trade_history_disk none r = [r] := by
  simp [save_trade_history_disk, save_trade_history]

/-! ## Claim C3 -/

theorem save_trade_history_length_le (h : List TradeRecord) (r : TradeRecord) :
    (save_trade_history h r).length ≤ 1000 := by
  simp only [save_trade_history]
  split_ifs with hlen
  · rw [List.length_drop]
    omega
  · push_neg at hlen
    exact hlen

theorem save_eq_takeLast (h : List TradeRecord) (r : TradeRecord) :
    save_trade_history h r = (h ++ [r]).drop ((h ++ [r]).length - 1000) := by
  simp only [save_trade_history]
  split_ifs with hlen
  · rfl
  · push_neg at hlen
    rw [Nat.sub_eq_zero_of_le hlen, List.drop_zero]

theorem takeLast_append_left {α : Type} (n : ℕ) (p l : List α)
    (h : n ≤ l.length) :
    (p ++ l).drop ((p ++ l).length - n) = l.drop (l.length - n) := by
  rw [List.length_append]
  have he : p.length + l.length - n = p.length + (l.length - n) := by omega
  rw [he, List.drop_append]

theorem takeLast_drop_append {α : Type} (n : ℕ) (a b : List α) :
    (a.drop (a.length - n) ++ b).drop
        ((a.drop (a.length - n) ++ b).length - n) =
      (a ++ b).drop ((a ++ b).length - n) := by
  by_cases hn : n ≤ a.length
  · have hslen : (a.drop (a.length - n)).length = n := by
      rw [List.length_drop]
      omega
    have hl2 : n ≤ (a.drop (a.length - n) ++ b).length := by
      rw [List.length_append, hslen]
      omega
    have hsplit : a ++ b = a.take (a.length - n) ++ (a.drop (a.length - n) ++ b) := by
      rw [← List.append_assoc, List.take_append_drop]
    conv_rhs => rw [hsplit]
    rw [takeLast_append_left n (a.take (a.length - n)) (a.drop (a.length - n) ++ b) hl2]
  · push_neg at hn
    rw [Nat.sub_eq_zero_of_le (le_of_lt hn), List.drop_zero]

theorem foldl_save (rs : List TradeRecord) : ∀ h : List TradeRecord,
    h.length ≤ 1000 →
    rs.foldl save_trade_history h = (h ++ rs).drop ((h ++ rs).length - 1000) := by
  induction rs with
  | nil =>
      intro h hh
      simp only [List.foldl_nil, List.append_nil]
      rw [Nat.sub_eq_zero_of_le hh, List.drop_zero]
  | cons r rs ih =>
      intro h hh
      rw [List.foldl_cons, ih (save_trade_history h r) (save_trade_history_length_le h r),
          save_eq_takeLast h r, takeLast_drop_append 1000 (h ++ [r]) rs]
      simp

/-- C3, confirmed: after every append via save_trade_history the
persisted history has length at most 1000, and a sequence of more than
1000 appends starting from an empty store leaves exactly the last 1000
appended records, in their original relative order (the suffix obtained
by dropping the oldest ones first). -/
theorem save_trade_history_cap :
    (∀ (h : List TradeRecord) (r : TradeRecord),
      (save_trade_history h r).length ≤ 1000) ∧
    (∀ rs : List TradeRecord, 1000 < rs.length →
      rs.foldl save_trade_history [] = rs.drop (rs.length - 1000)) := by
  refine ⟨save_trade_history_length_le, fun rs _ => ?_⟩
  have h := foldl_save rs [] (by simp)
  simpa using h

/-- C3, witness: appending 1001 copies of a record to an empty store
retains the last 1000 of them. -/
theorem save_trade_history_cap_witness :
    (save_trade_history [] sampleRecord).length ≤ 1000 ∧
    (List.replicate 1001 sampleRecord).foldl save_trade_history [] =
      (List.replicate 1001 sampleRecord).drop
        ((List.replicate 1001 sampleRecord).length - 1000) :=
  ⟨save_trade_history_cap.1 [] sampleRecord,
   save_trade_history_cap.2 (List.replicate 1001 sampleRecord)
      (by rw [List.length_replicate]; norm_num)⟩

/-! ## Webhook trace lemmas

Exact request traces of the futures-mode /webhook handler, one per
branch of the position-reconciliation logic. -/

section Webhook

variable (secretCfg symbolCfg modeCfg : String) (riskPct : ℚ) (prec : ℕ)
variable (b p entry stop : ℚ) (cid oid : ℤ) (openO : Except Unit ℤ)
variable (bodySecret querySecret sideRaw : Option String) (now : String)

theorem whLongReverse
    (hauth : pyOr bodySecret querySecret = some secretCfg)
    (hside : pyToUpper (sideRaw.getD "") = "LONG")
    (hE : 0 < entry) (hS : 0 < stop) (hne : entry ≠ stop)
    (hqty : 0 < calc_qty riskPct prec (.ok b) entry stop)
    (hp : p < 0) :
    webhook true secretCfg symbolCfg modeCfg riskPct prec
      ⟨.ok b, .ok p, .ok cid, .ok oid⟩ bodySecret querySecret sideRaw
      (.num entry) (.num stop) now =
      ⟨200, "ok",
        [.balanceQuery, .positionQuery, .newOrder "SELL" (-p) true,
         .newOrder "BUY" (calc_qty riskPct prec (.ok b) entry stop) false],
        [mkTradeRecord now "LONG" (calc_qty riskPct prec (.ok b) entry stop)
          entry stop (some oid) none symbolCfg modeCfg none]⟩ := by
  have hdist : ¬ (|entry - stop| ≤ 0) :=
    not_le.mpr (abs_pos.mpr (sub_ne_zero.mpr hne))
  have hprice : ¬ (entry ≤ 0 ∨ stop ≤ 0) := by push_neg; exact ⟨hE, hS⟩
  have habs : |p| = -p := abs_of_neg hp
  have hnp : ¬ (-p ≤ 0) := by linarith
  have hnplt : ¬ (-p < 0) := by linarith
  have hp0 : ¬ (0 < p) := by linarith
  simp only [webhook, hside, parseNum]
  rw [if_neg (by simp [hauth]), if_neg (by simp), if_neg hprice, if_neg hdist,
      if_neg (not_le.mpr hqty)]
  simp [close_if_reverse_calls, closeCalls, isError, habs, hnp, hnplt, hp0, hp,
    abs_neg]

theorem whShortReverse
    (hauth : pyOr bodySecret querySecret = some secretCfg)
    (hside : pyToUpper (sideRaw.getD "") = "SHORT")
    (hE : 0 < entry) (hS : 0 < stop) (hne : entry ≠ stop)
    (hqty : 0 < calc_qty riskPct prec (.ok b) entry stop)
    (hp : 0 < p) :
    webhook true secretCfg symbolCfg modeCfg riskPct prec
      ⟨.ok b, .ok p, .ok cid, .ok oid⟩ bodySecret querySecret sideRaw
      (.num entry) (.num stop) now =
      ⟨200, "ok",
        [.balanceQuery, .positionQuery, .newOrder "SELL" p true,
         .newOrder "SELL" (calc_qty riskPct prec (.ok b) entry stop) false],
        [mkTradeRecord now "SHORT" (calc_qty riskPct prec (.ok b) entry stop)
          entry stop (some oid) none symbolCfg modeCfg none]⟩ := by
  have hdist : ¬ (|entry - stop| ≤ 0) :=
    not_le.mpr (abs_pos.mpr (sub_ne_zero.mpr hne))
  have hprice : ¬ (entry ≤ 0 ∨ stop ≤ 0) := by push_neg; exact ⟨hE, hS⟩
  have habs : |p| = p := abs_of_pos hp
  have hple : ¬ (p ≤ 0) := not_le.mpr hp
  have hplt : ¬ (p < 0) := by linarith
  simp only [webhook, hside, parseNum]
  rw [if_neg (by simp [hauth]), if_neg (by simp), if_neg hprice, if_neg hdist,
      if_neg (not_le.mpr hqty)]
  simp [close_if_reverse_calls, closeCalls, isError, habs, hple, hplt, hp]

theorem whSkipLong
    (hauth : pyOr bodySecret querySecret = some secretCfg)
    (hside : pyToUpper (sideRaw.getD "") = "LONG")
    (hE : 0 < entry) (hS : 0 < stop) (hne : entry ≠ stop)
    (hqty : 0 < calc_qty riskPct prec (.ok b) entry stop)
    (hp : 0 < p) :
    webhook true secretCfg symbolCfg modeCfg riskPct prec
      ⟨.ok b, .ok p, .ok cid, .ok oid⟩ bodySecret querySecret sideRaw
      (.num entry) (.num stop) now =
      ⟨200, "skip", [.balanceQuery, .positionQuery], []⟩ := by
  have hdist : ¬ (|entry - stop| ≤ 0) :=
    not_le.mpr (abs_pos.mpr (sub_ne_zero.mpr hne))
  have hprice : ¬ (entry ≤ 0 ∨ stop ≤ 0) := by push_neg; exact ⟨hE, hS⟩
  have hplt : ¬ (p < 0) := by linarith
  simp only [webhook, hside, parseNum]
  rw [if_neg (by simp [hauth]), if_neg (by simp), if_neg hprice, if_neg hdist,
      if_neg (not_le.mpr hqty)]
  simp [close_if_reverse_calls, closeCalls, isError, hp, hplt]

theorem whSkipShort
    (hauth : pyOr bodySecret querySecret = some secretCfg)
    (hside : pyToUpper (sideRaw.getD "") = "SHORT")
    (hE : 0 < entry) (hS : 0 < stop) (hne : entry ≠ stop)
    (hqty : 0 < calc_qty riskPct prec (.ok b) entry stop)
    (hp : p < 0) :
    webhook true secretCfg symbolCfg modeCfg riskPct prec
      ⟨.ok b, .ok p, .ok cid, .ok oid⟩ bodySecret querySecret sideRaw
      (.num entry) (.num stop) now =
      ⟨200, "skip", [.balanceQuery, .positionQuery], []⟩ := by
  have hdist : ¬ (|entry - stop| ≤ 0) :=
    not_le.mpr (abs_pos.mpr (sub_ne_zero.mpr hne))
  have hprice : ¬ (entry ≤ 0 ∨ stop ≤ 0) := by push_neg; exact ⟨hE, hS⟩
  have hp0 : ¬ (0 < p) := by linarith
  simp only [webhook, hside, parseNum]
  rw [if_neg (by simp [hauth]), if_neg (by simp), if_neg hprice, if_neg hdist,
      if_neg (not_le.mpr hqty)]
  simp [close_if_reverse_calls, closeCalls, isError, hp, hp0]

theorem whFlatLong
    (hauth : pyOr bodySecret querySecret = some secretCfg)
    (hside : pyToUpper (sideRaw.getD "") = "LONG")
    (hE : 0 < entry) (hS : 0 < stop) (hne : entry ≠ stop)
    (hqty : 0 < calc_qty riskPct prec (.ok b) entry stop)
    (hp : p = 0) :
    webhook true secretCfg symbolCfg modeCfg riskPct prec
      ⟨.ok b, .ok p, .ok cid, .ok oid⟩ bodySecret querySecret sideRaw
      (.num entry) (.num stop) now =
      ⟨200, "ok",
        [.balanceQuery, .positionQuery,
         .newOrder "BUY" (calc_qty riskPct prec (.ok b) entry stop) false],
        [mkTradeRecord now "LONG" (calc_qty riskPct prec (.ok b) entry stop)
          entry stop (some oid) none symbolCfg modeCfg none]⟩ := by
  subst hp
  have hdist : ¬ (|entry - stop| ≤ 0) :=
    not_le.mpr (abs_pos.mpr (sub_ne_zero.mpr hne))
  have hprice : ¬ (entry ≤ 0 ∨ stop ≤ 0) := by push_neg; exact ⟨hE, hS⟩
  simp only [webhook, hside, parseNum]
  rw [if_neg (by simp [hauth]), if_neg (by simp), if_neg hprice, if_neg hdist,
      if_neg (not_le.mpr hqty)]
  simp [close_if_reverse_calls, closeCalls, isError]

theorem whFlatShort
    (hauth : pyOr bodySecret querySecret = some secretCfg)
    (hside : pyToUpper (sideRaw.getD "") = "SHORT")
    (hE : 0 < entry) (hS : 0 < stop) (hne : entry ≠ stop)
    (hqty : 0 < calc_qty riskPct prec (.ok b) entry stop)
    (hp : p = 0) :
    webhook true secretCfg symbolCfg modeCfg riskPct prec
      ⟨.ok b, .ok p, .ok cid, .ok oid⟩ bodySecret querySecret sideRaw
      (.num entry) (.num stop) now =
      ⟨200, "ok",
        [.balanceQuery, .positionQuery,
         .newOrder "SELL" (calc_qty riskPct prec (.ok b) entry stop) false],
        [mkTradeRecord now "SHORT" (calc_qty riskPct prec (.ok b) entry stop)
          entry stop (some oid) none symbolCfg modeCfg none]⟩ := by
  subst hp
  have hdist : ¬ (|entry - stop| ≤ 0) :=
    not_le.mpr (abs_pos.mpr (sub_ne_zero.mpr hne))
  have hprice : ¬ (entry ≤ 0 ∨ stop ≤ 0) := by push_neg; exact ⟨hE, hS⟩
  simp only [webhook, hside, parseNum]
  rw [if_neg (by simp [hauth]), if_neg (by simp), if_neg hprice, if_neg hdist,
      if_neg (not_le.mpr hqty)]
  simp [close_if_reverse_calls, closeCalls, isError]

theorem whCloseFailLong
    (hauth : pyOr bodySecret querySecret = some secretCfg)
    (hside : pyToUpper (sideRaw.getD "") = "LONG")
    (hE : 0 < entry) (hS : 0 < stop) (hne : entry ≠ stop)
    (hqty : 0 < calc_qty riskPct prec (.ok b) entry stop)
    (hp : p < 0) :
    webhook true secretCfg symbolCfg modeCfg riskPct prec
      ⟨.ok b, .ok p, .error (), openO⟩ bodySecret querySecret sideRaw
      (.num entry) (.num stop) now =
      ⟨500, "failed to close reverse position",
        [.balanceQuery, .positionQuery, .newOrder "SELL" (-p) true], []⟩ := by
  have hdist : ¬ (|entry - stop| ≤ 0) :=
    not_le.mpr (abs_pos.mpr (sub_ne_zero.mpr hne))
  have hprice : ¬ (entry ≤ 0 ∨ stop ≤ 0) := by push_neg; exact ⟨hE, hS⟩
  have habs : |p| = -p := abs_of_neg hp
  have hnp : ¬ (-p ≤ 0) := by linarith
  have hnplt : ¬ (-p < 0) := by linarith
  simp only [webhook, hside, parseNum]
  rw [if_neg (by simp [hauth]), if_neg (by simp), if_neg hprice, if_neg hdist,
      if_neg (not_le.mpr hqty)]
  simp [close_if_reverse_calls, closeCalls, isError, habs, hnp, hnplt, hp]

theorem whCloseFailShort
    (hauth : pyOr bodySecret querySecret = some secretCfg)
    (hside : pyToUpper (sideRaw.getD "") = "SHORT")
    (hE : 0 < entry) (hS : 0 < stop) (hne : entry ≠ stop)
    (hqty : 0 < calc_qty riskPct prec (.ok b) entry stop)
    (hp : 0 < p) :
    webhook true secretCfg symbolCfg modeCfg riskPct prec
      ⟨.ok b, .ok p, .error (), openO⟩ bodySecret querySecret sideRaw
      (.num entry) (.num stop) now =
      ⟨500, "failed to close reverse position",
        [.balanceQuery, .positionQuery, .newOrder "SELL" p true], []⟩ := by
  have hdist : ¬ (|entry - stop| ≤ 0) :=
    not_le.mpr (abs_pos.mpr (sub_ne_zero.mpr hne))
  have hprice : ¬ (entry ≤ 0 ∨ stop ≤ 0) := by push_neg; exact ⟨hE, hS⟩
  have habs : |p| = p := abs_of_pos hp
  have hple : ¬ (p ≤ 0) := not_le.mpr hp
  simp only [webhook, hside, parseNum]
  rw [if_neg (by simp [hauth]), if_neg (by simp), if_neg hprice, if_neg hdist,
      if_neg (not_le.mpr hqty)]
  simp [close_if_reverse_calls, closeCalls, isError, habs, hple, hp, hp.le]

end Webhook

/-- calc_qty at the default configuration, balance 1000, entry 100,
stop 95: risk 10 over distance 5 gives quantity 2. -/
theorem calc_qty_at_1000_100_95 :
    calc_qty RISK_PCT QTY_PRECISION (.ok 1000) 100 95 = 2 := by
  rw [calc_qty_pos_path _ _ _ _ _ (by norm_num) (by norm_num) (by norm_num)
    (by norm_num)]
  have h : (1000:ℚ) * RISK_PCT / |(100:ℚ) - 95| = 2 := by norm_num [RISK_PCT]
  rw [h]
  unfold pyRound rhe
  norm_num [Int.fract, QTY_PRECISION]

/-! ## Claims C2, C4, C5, C6, C9 -/

section Claims

variable (secretCfg symbolCfg modeCfg : String) (riskPct : ℚ) (prec : ℕ)
variable (b p entry stop : ℚ) (cid oid : ℤ) (openO : Except Unit ℤ)
variable (bodySecret querySecret sideRaw : Option String) (now : String)

/-- C2, counterexample: a record-only signal with action EXIT and a
valid secret is answered with HTTP 200 and status ignored, and no
record is appended to the ledger - the handler does not scan the ledger
for a matching ENTRY and does not append an EXIT record, contradicting
the claim. -/
theorem stock_exit_appends_no_record :
    webhook_a_stock "s" "BTCUSDT" "testnet" (some "s") none (some "EXIT")
      (some "LONG") "AAPL" (.num 1) (.num 10) (.num 9) none none none "t" =
      ⟨200, "ignored", []⟩ := by
  decide

/-- C2, amended: for every record-only (cn/us) signal whose action
field upper-cases to EXIT, the handler answers HTTP 200 with status
ignored and appends no record to the ledger; no pairing scan of the
ledger is performed (none exists in the handler). -/
theorem stock_exit_ignored (actionRaw : Option String) (symbol : String)
    (qtyF entryF stopF : NumField) (tp1 tp2 score : Option ℚ)
    (hauth : pyOr bodySecret querySecret = some secretCfg)
    (hexit : pyToUpper (actionRaw.getD "ENTRY") = "EXIT") :
    webhook_a_stock secretCfg symbolCfg modeCfg bodySecret querySecret
      actionRaw sideRaw symbol qtyF entryF stopF tp1 tp2 score now =
      ⟨200, "ignored", []⟩ := by
  simp only [webhook_a_stock, hexit]
  rw [if_neg (by simp [hauth]), if_pos (by decide)]

/-- C2, witness for the amended claim: a lower-case exit action is
ignored. -/
theorem stock_exit_ignored_witness :
    webhook_a_stock "k" "BTCUSDT" "main" (some "k") none (some "exit")
      (some "LONG") "000001" (.num 2) (.num 20) (.num 18) none none none
      "t2" = ⟨200, "ignored", []⟩ := by
  apply stock_exit_ignored <;> decide

/-- C4, confirmed: in futures mode, for an authorized request with
valid prices and positive computed quantity, against signed position p:
a LONG signal with p < 0 issues the reduce-only close of abs p before
the opening BUY order; a SHORT signal with p > 0 symmetrically closes p
first; LONG with p > 0 and SHORT with p < 0 answer skip and place no
order; with p = 0 the opening order proceeds directly with no close. -/
theorem webhook_reconciles_position
    (hauth : pyOr bodySecret querySecret = some secretCfg)
    (hE : 0 < entry) (hS : 0 < stop) (hne : entry ≠ stop)
    (hqty : 0 < calc_qty riskPct prec (.ok b) entry stop) :
    (pyToUpper (sideRaw.getD "") = "LONG" → p < 0 →
      webhook true secretCfg symbolCfg modeCfg riskPct prec
        ⟨.ok b, .ok p, .ok cid, .ok oid⟩ bodySecret querySecret sideRaw
        (.num entry) (.num stop) now =
      ⟨200, "ok",
        [.balanceQuery, .positionQuery, .newOrder "SELL" (-p) true,
         .newOrder "BUY" (calc_qty riskPct prec (.ok b) entry stop) false],
        [mkTradeRecord now "LONG" (calc_qty riskPct prec (.ok b) entry stop)
          entry stop (some oid) none symbolCfg modeCfg none]⟩) ∧
    (pyToUpper (sideRaw.getD "") = "SHORT" → 0 < p →
      webhook true secretCfg symbolCfg modeCfg riskPct prec
        ⟨.ok b, .ok p, .ok cid, .ok oid⟩ bodySecret querySecret sideRaw
        (.num entry) (.num stop) now =
      ⟨200, "ok",
        [.balanceQuery, .positionQuery, .newOrder "SELL" p true,
         .newOrder "SELL" (calc_qty riskPct prec (.ok b) entry stop) false],
        [mkTradeRecord now "SHORT" (calc_qty riskPct prec (.ok b) entry stop)
          entry stop (some oid) none symbolCfg modeCfg none]⟩) ∧
    (pyToUpper (sideRaw.getD "") = "LONG" → 0 < p →
      webhook true secretCfg symbolCfg modeCfg riskPct prec
        ⟨.ok b, .ok p, .ok cid, .ok oid⟩ bodySecret querySecret sideRaw
        (.num entry) (.num stop) now =
      ⟨200, "skip", [.balanceQuery, .positionQuery], []⟩) ∧
    (pyToUpper (sideRaw.getD "") = "SHORT" → p < 0 →
      webhook true secretCfg symbolCfg modeCfg riskPct prec
        ⟨.ok b, .ok p, .ok cid, .ok oid⟩ bodySecret querySecret sideRaw
        (.num entry) (.num stop) now =
      ⟨200, "skip", [.balanceQuery, .positionQuery], []⟩) ∧
    (pyToUpper (sideRaw.getD "") = "LONG" → p = 0 →
      webhook true secretCfg symbolCfg modeCfg riskPct prec
        ⟨.ok b, .ok p, .ok cid, .ok oid⟩ bodySecret querySecret sideRaw
        (.num entry) (.num stop) now =
      ⟨200, "ok",
        [.balanceQuery, .positionQuery,
         .newOrder "BUY" (calc_qty riskPct prec (.ok b) entry stop) false],
        [mkTradeRecord now "LONG" (calc_qty riskPct prec (.ok b) entry stop)
          entry stop (some oid) none symbolCfg modeCfg none]⟩) ∧
    (pyToUpper (sideRaw.getD "") = "SHORT" → p = 0 →
      webhook true secretCfg symbolCfg modeCfg riskPct prec
        ⟨.ok b, .ok p, .ok cid, .ok oid⟩ bodySecret querySecret sideRaw
        (.num entry) (.num stop) now =
      ⟨200, "ok",
        [.balanceQuery, .positionQuery,
         .newOrder "SELL" (calc_qty riskPct prec (.ok b) entry stop) false],
        [mkTradeRecord now "SHORT" (calc_qty riskPct prec (.ok b) entry stop)
          entry stop (some oid) none symbolCfg modeCfg none]⟩) := by
  refine ⟨?_, ?_, ?_, ?_, ?_, ?_⟩ <;> intro hside hp
  · apply whLongReverse <;> assumption
  · apply whShortReverse <;> assumption
  · apply whSkipLong <;> assumption
  · apply whSkipShort <;> assumption
  · apply whFlatLong <;> assumption
  · apply whFlatShort <;> assumption

/-- C5, confirmed: when a request triggers a reverse-position close and
the close call raises, the request answers HTTP 500 and no opening
(non-reduce-only) market order is ever attempted, whatever the opening
call would have returned. -/
theorem webhook_close_failure_aborts
    (hauth : pyOr bodySecret querySecret = some secretCfg)
    (hE : 0 < entry) (hS : 0 < stop) (hne : entry ≠ stop)
    (hqty : 0 < calc_qty riskPct prec (.ok b) entry stop)
    (hrev : (pyToUpper (sideRaw.getD "") = "LONG" ∧ p < 0) ∨
            (pyToUpper (sideRaw.getD "") = "SHORT" ∧ 0 < p)) :
    webhook true secretCfg symbolCfg modeCfg riskPct prec
        ⟨.ok b, .ok p, .error (), openO⟩ bodySecret querySecret sideRaw
        (.num entry) (.num stop) now =
      ⟨500, "failed to close reverse position",
        [.balanceQuery, .positionQuery, .newOrder "SELL" |p| true], []⟩ ∧
    ∀ (s : String) (q : ℚ),
      ExCall.newOrder s q false ∉
        (webhook true secretCfg symbolCfg modeCfg riskPct prec
            ⟨.ok b, .ok p, .error (), openO⟩ bodySecret querySecret sideRaw
            (.num entry) (.num stop) now).calls := by
  have hmain : webhook true secretCfg symbolCfg modeCfg riskPct prec
      ⟨.ok b, .ok p, .error (), openO⟩ bodySecret querySecret sideRaw
      (.num entry) (.num stop) now =
      ⟨500, "failed to close reverse position",
        [.balanceQuery, .positionQuery, .newOrder "SELL" |p| true], []⟩ := by
    rcases hrev with ⟨hside, hp⟩ | ⟨hside, hp⟩
    · rw [abs_of_neg hp]
      apply whCloseFailLong <;> assumption
    · rw [abs_of_pos hp]
      apply whCloseFailShort <;> assumption
  refine ⟨hmain, ?_⟩
  intro s q
  rw [hmain]
  simp

/-- C6, counterexample: the claim reads the secret from the body
whenever it is present.  With body secret equal to the empty string
(present, not equal to the configured secret "s") and the correct
secret in the query string, the claim demands HTTP 403 with no exchange
call and no ledger write, but the code falls back to the query string
(Python or treats the empty string as absent), authorizes the request,
places an order and writes the ledger. -/
theorem webhook_empty_body_secret_fallback :
    ("" : String) ≠ "s" ∧
    webhook true "s" "BTCUSDT" "testnet" RISK_PCT QTY_PRECISION
        ⟨.ok 1000, .ok 0, .ok 1, .ok 7⟩ (some "") (some "s") (some "LONG")
        (.num 100) (.num 95) "t" =
      ⟨200, "ok",
        [.balanceQuery, .positionQuery, .newOrder "BUY" 2 false],
        [⟨"t", "LONG", 2, 100, 95, some 7, "BTCUSDT", "testnet", none⟩]⟩ := by
  refine ⟨by decide, ?_⟩
  have h : webhook true "s" "BTCUSDT" "testnet" RISK_PCT QTY_PRECISION
      ⟨.ok 1000, .ok 0, .ok 1, .ok 7⟩ (some "") (some "s") (some "LONG")
      (.num 100) (.num 95) "t" =
      ⟨200, "ok",
        [.balanceQuery, .positionQuery,
         .newOrder "BUY" (calc_qty RISK_PCT QTY_PRECISION (.ok 1000) 100 95) false],
        [mkTradeRecord "t" "LONG" (calc_qty RISK_PCT QTY_PRECISION (.ok 1000) 100 95)
          100 95 (some 7) none "BTCUSDT" "testnet" none]⟩ := by
    apply whFlatLong <;>
      first
        | decide
        | (rw [calc_qty_at_1000_100_95]; norm_num)
  rw [h, calc_qty_at_1000_100_95]
  rfl

/-- C6, amended: for every webhook request whose effective secret (the
body secret, falling back to the query string when the body secret is
absent or empty) does not exactly equal the configured shared secret,
the response status is 403, no exchange client call is made, and no
trade-history record is written. -/
theorem webhook_unauthorized_rejected (isFutures : Bool) (env : Env)
    (entryF stopF : NumField)
    (h : pyOr bodySecret querySecret ≠ some secretCfg) :
    webhook isFutures secretCfg symbolCfg modeCfg riskPct prec env bodySecret
      querySecret sideRaw entryF stopF now = ⟨403, "unauthorized", [], []⟩ := by
  unfold webhook
  rw [if_pos h]

/-- C6, witness for the amended claim: a wrong body secret is rejected
with 403, no exchange call and no ledger write. -/
theorem webhook_unauthorized_rejected_witness :
    webhook true "s" "BTCUSDT" "testnet" RISK_PCT QTY_PRECISION
      ⟨.ok 1000, .ok 0, .ok 1, .ok 7⟩ (some "wrong") none (some "LONG")
      (.num 100) (.num 95) "t" = ⟨403, "unauthorized", [], []⟩ := by
  apply webhook_unauthorized_rejected
  decide

end Claims

/-- C4, witness: against a short position of 2 with a LONG signal at
the default configuration, the request closes 2 reduce-only and then
opens: the non-vacuous branch of the reconciliation theorem at a
concrete input. -/
theorem webhook_reconciles_position_witness :
    (pyToUpper ((some "LONG").getD "") = "LONG" → (-2 : ℚ) < 0 →
      webhook true "s" "BTCUSDT" "testnet" RISK_PCT QTY_PRECISION
        ⟨.ok 1000, .ok (-2), .ok 1, .ok 7⟩ (some "s") none (some "LONG")
        (.num 100) (.num 95) "t" =
      ⟨200, "ok",
        [.balanceQuery, .positionQuery, .newOrder "SELL" (-(-2 : ℚ)) true,
         .newOrder "BUY" (calc_qty RISK_PCT QTY_PRECISION (.ok 1000) 100 95) false],
        [mkTradeRecord "t" "LONG" (calc_qty RISK_PCT QTY_PRECISION (.ok 1000) 100 95)
          100 95 (some 7) none "BTCUSDT" "testnet" none]⟩) ∧
    (pyToUpper ((some "LONG").getD "") = "SHORT" → (0 : ℚ) < -2 →
      webhook true "s" "BTCUSDT" "testnet" RISK_PCT QTY_PRECISION
        ⟨.ok 1000, .ok (-2), .ok 1, .ok 7⟩ (some "s") none (some "LONG")
        (.num 100) (.num 95) "t" =
      ⟨200, "ok",
        [.balanceQuery, .positionQuery, .newOrder "SELL" (-2 : ℚ) true,
         .newOrder "SELL" (calc_qty RISK_PCT QTY_PRECISION (.ok 1000) 100 95) false],
        [mkTradeRecord "t" "SHORT" (calc_qty RISK_PCT QTY_PRECISION (.ok 1000) 100 95)
          100 95 (some 7) none "BTCUSDT" "testnet" none]⟩) ∧
    (pyToUpper ((some "LONG").getD "") = "LONG" → (0 : ℚ) < -2 →
      webhook true "s" "BTCUSDT" "testnet" RISK_PCT QTY_PRECISION
        ⟨.ok 1000, .ok (-2), .ok 1, .ok 7⟩ (some "s") none (some "LONG")
        (.num 100) (.num 95) "t" =
      ⟨200, "skip", [.balanceQuery, .positionQuery], []⟩) ∧
    (pyToUpper ((some "LONG").getD "") = "SHORT" → (-2 : ℚ) < 0 →
      webhook true "s" "BTCUSDT" "testnet" RISK_PCT QTY_PRECISION
        ⟨.ok 1000, .ok (-2), .ok 1, .ok 7⟩ (some "s") none (some "LONG")
        (.num 100) (.num 95) "t" =
      ⟨200, "skip", [.balanceQuery, .positionQuery], []⟩) ∧
    (pyToUpper ((some "LONG").getD "") = "LONG" → (-2 : ℚ) = 0 →
      webhook true "s" "BTCUSDT" "testnet" RISK_PCT QTY_PRECISION
        ⟨.ok 1000, .ok (-2), .ok 1, .ok 7⟩ (some "s") none (some "LONG")
        (.num 100) (.num 95) "t" =
      ⟨200, "ok",
        [.balanceQuery, .positionQuery,
         .newOrder "BUY" (calc_qty RISK_PCT QTY_PRECISION (.ok 1000) 100 95) false],
        [mkTradeRecord "t" "LONG" (calc_qty RISK_PCT QTY_PRECISION (.ok 1000) 100 95)
          100 95 (some 7) none "BTCUSDT" "testnet" none]⟩) ∧
    (pyToUpper ((some "LONG").getD "") = "SHORT" → (-2 : ℚ) = 0 →
      webhook true "s" "BTCUSDT" "testnet" RISK_PCT QTY_PRECISION
        ⟨.ok 1000, .ok (-2), .ok 1, .ok 7⟩ (some "s") none (some "LONG")
        (.num 100) (.num 95) "t" =
      ⟨200, "ok",
        [.balanceQuery, .positionQuery,
         .newOrder "SELL" (calc_qty RISK_PCT QTY_PRECISION (.ok 1000) 100 95) false],
        [mkTradeRecord "t" "SHORT" (calc_qty RISK_PCT QTY_PRECISION (.ok 1000) 100 95)
          100 95 (some 7) none "BTCUSDT" "testnet" none]⟩) := by
  apply webhook_reconciles_position <;>
    first
      | decide
      | (rw [calc_qty_at_1000_100_95]; norm_num)

/-- C5, witness: LONG signal against a short position of 2 with a
failing close call answers 500 and attempts no opening order. -/
theorem webhook_close_failure_aborts_witness :
    webhook true "s" "BTCUSDT" "testnet" RISK_PCT QTY_PRECISION
        ⟨.ok 1000, .ok (-2), .error (), .ok 7⟩ (some "s") none (some "LONG")
        (.num 100) (.num 95) "t" =
      ⟨500, "failed to close reverse position",
        [.balanceQuery, .positionQuery, .newOrder "SELL" |(-2 : ℚ)| true], []⟩ ∧
    ∀ (s : String) (q : ℚ),
      ExCall.newOrder s q false ∉
        (webhook true "s" "BTCUSDT" "testnet" RISK_PCT QTY_PRECISION
            ⟨.ok 1000, .ok (-2), .error (), .ok 7⟩ (some "s") none (some "LONG")
            (.num 100) (.num 95) "t").calls := by
  apply webhook_close_failure_aborts <;>
    first
      | decide
      | (rw [calc_qty_at_1000_100_95]; norm_num)

/-- C9, confirmed: in futures mode the close helper returns without any
order for qty ≤ 0, so the BUY branch (qty < 0) is unreachable and every
reduce-only close order carries side SELL - including the close of an
opposing short position triggered by a LONG signal, which on the real
exchange would require a BUY to flatten. -/
theorem close_always_sell :
    (∀ q : ℚ, q ≤ 0 → closeCalls true q = []) ∧
    (∀ q : ℚ, 0 < q → closeCalls true q = [ExCall.newOrder "SELL" q true]) ∧
    (∀ (side : String) (p : ℚ),
      (side = "LONG" ∧ p < 0) ∨ (side = "SHORT" ∧ 0 < p) →
      close_if_reverse_calls true side p = [ExCall.newOrder "SELL" |p| true]) := by
  refine ⟨fun q hq => by simp [closeCalls, hq], fun q hq => ?_, fun side p h => ?_⟩
  · have h1 : ¬ (q ≤ 0) := not_le.mpr hq
    have h2 : ¬ (q < 0) := by linarith
    simp [closeCalls, h1, h2, hq.le]
  · rcases h with ⟨hs, hp⟩ | ⟨hs, hp⟩
    · subst hs
      have h1 : ¬ (|p| ≤ 0) := not_le.mpr (abs_pos.mpr (ne_of_lt hp))
      have h2 : ¬ (|p| < 0) := not_lt.mpr (abs_nonneg p)
      simp [close_if_reverse_calls, closeCalls, hp, h1, h2]
    · subst hs
      have h1 : ¬ (|p| ≤ 0) := not_le.mpr (abs_pos.mpr (ne_of_gt hp))
      have h2 : ¬ (|p| < 0) := not_lt.mpr (abs_nonneg p)
      simp [close_if_reverse_calls, closeCalls, hp, h1, h2]

/-- C9, witness: a nonpositive quantity produces no order, a positive
quantity produces a single SELL reduce-only order, and the reverse
close for a LONG signal against a short position of 2 is submitted as
SELL. -/
theorem close_always_sell_witness :
    closeCalls true (-1) = [] ∧
    closeCalls true 2 = [ExCall.newOrder "SELL" 2 true] ∧
    close_if_reverse_calls true "LONG" (-2) =
      [ExCall.newOrder "SELL" |(-2 : ℚ)| true] :=
  ⟨close_always_sell.1 (-1) (by norm_num),
   close_always_sell.2.1 2 (by norm_num),
   close_always_sell.2.2 "LONG" (-2) (Or.inl ⟨rfl, by norm_num⟩)⟩

end BinanceBot
